import Mathlib

/-!
Verification of the pureapi-core translation → execution → transaction
pipeline.  Shallow embedding of:

* `database.Transaction` / `finalizeTransaction` (transaction unit-of-work),
* the `input` package translation layer (`ToDBSelectors`, `ToDBOrders`,
  `ToDBUpdates`, `ParseGetInput`, `ParseUpdateInput`, `ParseDeleteInput`),
* the `repository` generic execution primitives (`Exec`, `Query`,
  `QuerySingleValue`, `QuerySingleEntity`, `QueryEntities`), with an explicit
  event trace recording prepare/close/hook interactions with the driver.

Go maps are embedded as association lists (first-match lookup), Go
`(value, error)` pairs as `Except`, and side effects on the driver as an
explicit list of events returned next to the value.
-/

namespace PureAPI

namespace Database

/-- Behavior of a transaction handle: the outcome of calling Commit and the
outcome of calling Rollback (`none` = success). Mirrors `types.Tx`. -/
structure Tx (E : Type) where
  commitErr : Option E
  rollbackErr : Option E
deriving DecidableEq, Repr

/-- The possible behaviors of a `types.TxFn`: return a result together with an
optional error, or panic with a value `v`. -/
inductive TxFnOutcome (R E V : Type) where
  | ret (r : R) (e : Option E)
  | panics (v : V)
deriving DecidableEq, Repr

/-- Errors observable from `Transaction`: the error returned by the
transaction function, the error built from a recovered panic
(`fmt.Errorf("Transaction TxFn panicked: %v", recovered)`), and the wrapped
rollback / commit failures built by `finalizeTransaction`. -/
inductive TxError (E V : Type) where
  | fnErr (e : E)
  | panicMsg (v : V)
  | rollbackWrap (e : E)
  | commitWrap (e : E)
deriving DecidableEq, Repr

/-- Which finalization method was invoked on the transaction handle. -/
inductive TxCall where
  | commit
  | rollback
deriving DecidableEq, Repr

/-- Embedding of `finalizeTransaction` (src/unnamed/part_031, lines 48-59):
rolls back when `txErr` is non-nil, commits otherwise; a failing finalizer is
returned wrapped.  The second component records the call made on `tx`. -/
def finalizeTransaction {E V : Type} (tx : Tx E) (txErr : Option (TxError E V)) :
    Option (TxError E V) × List TxCall :=
  match txErr with
  | some _ =>
    match tx.rollbackErr with
    | some err => (some (.rollbackWrap err), [.rollback])
    | none => (none, [.rollback])
  | none =>
    match tx.commitErr with
    | some err => (some (.commitWrap err), [.commit])
    | none => (none, [.commit])

/-- The observable outcome of `Transaction`: a normal return carrying a result
and an optional error, or a propagated panic. -/
inductive TxOutcome (R E V : Type) where
  | normal (result : R) (err : Option (TxError E V))
  | panicked (v : V)
deriving DecidableEq, Repr

/-- Embedding of `Transaction` (src/unnamed/part_031, lines 22-45).  The
deferred function recovers a panic into `txErr`, runs `finalizeTransaction`,
overwrites `txErr` and zeroes the result when finalization fails, and
re-raises the recovered panic when one occurred. -/
def Transaction {R E V : Type} [Inhabited R] (tx : Tx E) (txFn : TxFnOutcome R E V) :
    TxOutcome R E V × List TxCall :=
  match txFn with
  | .ret r e0 =>
    let txErr : Option (TxError E V) := e0.map .fnErr
    match finalizeTransaction tx txErr with
    | (some fe, calls) => (.normal default (some fe), calls)
    | (none, calls) => (.normal r txErr, calls)
  | .panics v =>
    let txErr : Option (TxError E V) := some (.panicMsg v)
    match finalizeTransaction tx txErr with
    | (_, calls) => (.panicked v, calls)

/-- The error returned normally by an invocation of `Transaction`
(`none` when the invocation panicked or returned no error). -/
def returnedError {R E V : Type} : TxOutcome R E V → Option (TxError E V)
  | .normal _ e => e
  | .panicked _ => none

/-- C1: if txFn returns with nil error, Transaction commits; a commit failure
becomes the returned error with the result zeroed, and on commit success the
result and nil error come back unchanged.  If txFn returns a non-nil error,
Transaction rolls back; a rollback failure is surfaced as the returned error
(masking txFn's error) with the result zeroed, and on rollback success txFn's
original error is returned. -/
theorem transaction_return_semantics {R E V : Type} [Inhabited R]
    (tx : Tx E) (r : R) (e : E) :
    (tx.commitErr = none →
      Transaction (V := V) tx (.ret r none) = (.normal r none, [.commit])) ∧
    (∀ c, tx.commitErr = some c →
      Transaction (V := V) tx (.ret r none) =
        (.normal default (some (.commitWrap c)), [.commit])) ∧
    (tx.rollbackErr = none →
      Transaction (V := V) tx (.ret r (some e)) =
        (.normal r (some (.fnErr e)), [.rollback])) ∧
    (∀ f, tx.rollbackErr = some f →
      Transaction (V := V) tx (.ret r (some e)) =
        (.normal default (some (.rollbackWrap f)), [.rollback])) := by
  refine ⟨?_, ?_, ?_, ?_⟩
  · intro h
    simp [Transaction, finalizeTransaction, h]
  · intro c h
    simp [Transaction, finalizeTransaction, h]
  · intro h
    simp [Transaction, finalizeTransaction, h]
  · intro f h
    simp [Transaction, finalizeTransaction, h]

/-- Witness for C1: both finalizer-success and finalizer-failure cases at
concrete inputs. -/
theorem transaction_return_semantics_witness :
    Transaction (V := Unit) (⟨none, none⟩ : Tx String) (.ret (5 : Nat) none) =
      (.normal 5 none, [.commit]) ∧
    Transaction (V := Unit) (⟨some "c", none⟩ : Tx String) (.ret (5 : Nat) none) =
      (.normal 0 (some (.commitWrap "c")), [.commit]) ∧
    Transaction (V := Unit) (⟨none, none⟩ : Tx String) (.ret (5 : Nat) (some "e")) =
      (.normal 5 (some (.fnErr "e")), [.rollback]) ∧
    Transaction (V := Unit) (⟨none, some "f"⟩ : Tx String) (.ret (5 : Nat) (some "e")) =
      (.normal 0 (some (.rollbackWrap "f")), [.rollback]) :=
  ⟨(transaction_return_semantics ⟨none, none⟩ 5 "e").1 rfl,
   (transaction_return_semantics ⟨some "c", none⟩ 5 "e").2.1 "c" rfl,
   (transaction_return_semantics ⟨none, none⟩ 5 "e").2.2.1 rfl,
   (transaction_return_semantics ⟨none, some "f"⟩ 5 "e").2.2.2 "f" rfl⟩

/-- C3: when txFn panics with `v`, Transaction invokes Rollback (never
Commit), never returns normally, and re-panics with the same value `v` —
regardless of whether the rollback itself succeeds or fails. -/
theorem transaction_panic_reraises {R E V : Type} [Inhabited R]
    (tx : Tx E) (v : V) :
    Transaction (R := R) (E := E) tx (.panics v) = (.panicked v, [.rollback]) := by
  unfold Transaction finalizeTransaction
  cases tx.rollbackErr <;> rfl

/-- C4 counterexample: with a transaction whose Rollback fails, a panicking
txFn makes Transaction invoke Rollback and then re-panic; the rollback
failure appears in no returned error, because nothing is returned at all. -/
theorem transaction_finalizer_failure_cex :
    (Transaction (R := Nat) (V := Nat)
        (⟨none, some "rollback failed"⟩ : Tx String) (.panics 7)).2
      = [TxCall.rollback] ∧
    returnedError (Transaction (R := Nat) (V := Nat)
        (⟨none, some "rollback failed"⟩ : Tx String) (.panics 7)).1 = none :=
  ⟨rfl, rfl⟩

/-- C4 amended: every invocation of Transaction invokes exactly one of Commit
and Rollback, exactly once.  On a normal return, a failure of the invoked
finalizer appears in the returned error; when txFn panics, the panic is
re-raised and a rollback failure is not surfaced in any returned error. -/
theorem transaction_exactly_one_finalizer {R E V : Type} [Inhabited R]
    (tx : Tx E) (fn : TxFnOutcome R E V) :
    ((Transaction tx fn).2 = [TxCall.commit] ∨
      (Transaction tx fn).2 = [TxCall.rollback]) ∧
    (∀ r c, fn = .ret r none → tx.commitErr = some c →
      returnedError (Transaction tx fn).1 = some (.commitWrap c)) ∧
    (∀ r e f, fn = .ret r (some e) → tx.rollbackErr = some f →
      returnedError (Transaction tx fn).1 = some (.rollbackWrap f)) ∧
    (∀ v, fn = .panics v → (Transaction tx fn).1 = .panicked v) := by
  refine ⟨?_, ?_, ?_, ?_⟩
  · cases fn with
    | ret r e0 =>
      cases e0 with
      | none =>
        cases h : tx.commitErr <;>
          simp [Transaction, finalizeTransaction, h]
      | some e =>
        cases h : tx.rollbackErr <;>
          simp [Transaction, finalizeTransaction, h]
    | panics v =>
      cases h : tx.rollbackErr <;>
        simp [Transaction, finalizeTransaction, h]
  · rintro r c rfl h
    simp [Transaction, finalizeTransaction, returnedError, h]
  · rintro r e f rfl h
    simp [Transaction, finalizeTransaction, returnedError, h]
  · rintro v rfl
    cases h : tx.rollbackErr <;>
      simp [Transaction, finalizeTransaction, h]

/-- Witness for amended C4: concrete invocations exercising the commit-failure,
rollback-failure, and panic conjuncts. -/
theorem transaction_exactly_one_finalizer_witness :
    returnedError (Transaction (V := Unit)
        (⟨some "c", none⟩ : Tx String) (.ret (5 : Nat) none)).1
      = some (.commitWrap "c") ∧
    returnedError (Transaction (V := Unit)
        (⟨none, some "f"⟩ : Tx String) (.ret (5 : Nat) (some "e"))).1
      = some (.rollbackWrap "f") ∧
    (Transaction (R := Nat) (E := String) (⟨none, none⟩ : Tx String)
        (.panics (3 : Nat))).1 = .panicked 3 :=
  ⟨(transaction_exactly_one_finalizer ⟨some "c", none⟩ (.ret 5 none)).2.1
      5 "c" rfl rfl,
   (transaction_exactly_one_finalizer ⟨none, some "f"⟩
      (.ret 5 (some "e"))).2.2.1 5 "e" "f" rfl rfl,
   (transaction_exactly_one_finalizer ⟨none, none⟩ (.panics 3)).2.2.2 3 rfl⟩

end Database

namespace Input

/-- Embedding of Go `strings.ToLower` for the ASCII tokens the translation
layer lowercases: lower-case every character.  (Stated via `List.map` over
the character list so that it reduces by structural recursion.) -/
def strToLower (s : String) : String :=
  ⟨s.data.map Char.toLower⟩

/-- Association-list lookup embedding a Go `map[string]string` read
(with comma-ok). -/
def lookupStr (m : List (String × String)) (k : String) : Option String :=
  match m with
  | [] => none
  | (key, v) :: rest => if key = k then some v else lookupStr rest k

/-- `DBField` from src/input/clause.go: the physical table/column a logical
field name maps to. -/
structure DBField where
  table : String
  column : String
deriving DecidableEq, Repr

/-- `APIToDBFields`: the allow-list map from API field names to DBFields,
embedded as an association list. -/
abbrev APIToDBFields := List (String × DBField)

/-- Embedding of a Go map read `m[field]` with comma-ok on the allow-list. -/
def lookupField (m : APIToDBFields) (field : String) : Option DBField :=
  match m with
  | [] => none
  | (key, v) :: rest => if key = field then some v else lookupField rest field

/-- `ToDBPredicates` from src/input/clause.go lines 68-83: the fixed
predicate-alias table, keyed by the declared predicate constants (note the
constant `Lt` is declared as the upper-case string "LT") and mapping to the
dbquery predicates. -/
def ToDBPredicates : List (String × String) :=
  [(">", ">"), ("gt", ">"),
   (">=", ">="), ("ge", ">="),
   ("=", "="), ("eq", "="),
   ("!=", "!="), ("ne", "!="),
   ("<", "<"), ("LT", "<"),
   ("<=", "<="), ("le", "<="),
   ("in", "IN"), ("not_in", "NOT IN")]

/-- `DirectionsToDB` from src/input/clause.go lines 175-180: order-direction
tokens to dbquery directions. -/
def DirectionsToDB : List (String × String) :=
  [("asc", "ASC"), ("ascending", "ASC"),
   ("desc", "DESC"), ("descending", "DESC")]

/-- The typed errors produced by the `input` translation layer, identified by
their API-error id and the data attached via `WithData`.
`translateOrdersWrap` embeds the `fmt.Errorf("TranslateToDBOrders: %w", err)`
wrapping. `maxPageLimitExceeded` is declared in the source but, as proved
below, never returned. -/
inductive InputErr where
  | invalidPredicate (predicate : String)
  | invalidDatabaseSelectorTranslation (field : String)
  | invalidDatabaseUpdateTranslation (field : String)
  | invalidOrderField (field : String)
  | needAtLeastOneSelector
  | needAtLeastOneUpdate
  | maxPageLimitExceeded
  | translateOrdersWrap (e : InputErr)
deriving DecidableEq, Repr

/-- The field name carried in the data of a translation error, if any. -/
def fieldOfErr : InputErr → Option String
  | .invalidDatabaseSelectorTranslation f => some f
  | .invalidDatabaseUpdateTranslation f => some f
  | .invalidOrderField f => some f
  | .translateOrdersWrap e => fieldOfErr e
  | _ => none

/-- Whether an error is (or wraps) the declared `ErrMaxPageLimitExceeded`. -/
def mentionsMaxPage : InputErr → Bool
  | .maxPageLimitExceeded => true
  | .translateOrdersWrap e => mentionsMaxPage e
  | _ => false

/-- `Selector` from src/input/clause.go: predicate and value, keyed by field
name in a `Selectors` collection.  The value type is abstract (`any` in Go). -/
structure Selector (α : Type) where
  predicate : String
  value : α
deriving DecidableEq, Repr

/-- `Selectors`: a map from field name to Selector, embedded as an
association list. -/
abbrev Selectors (α : Type) := List (String × Selector α)

/-- `Orders`: a map from field name to order-direction token. -/
abbrev Orders := List (String × String)

/-- `Updates`: a map from field name to new value. -/
abbrev Updates (α : Type) := List (String × α)

/-- `dbquery.Selector`: the translated database selector. -/
structure DBSelector (α : Type) where
  table : String
  column : String
  predicate : String
  value : α
deriving DecidableEq, Repr

/-- `dbquery.Order`: the translated database order. -/
structure DBOrder where
  table : String
  field : String
  direction : String
deriving DecidableEq, Repr

/-- `dbquery.Update`: the translated database update assignment. -/
structure DBUpdate (α : Type) where
  field : String
  value : α
deriving DecidableEq, Repr

/-- Embedding of `Selectors.ToDBSelectors` (src/input/clause.go lines
354-394): for each entry, lower-case and look up the predicate in
`ToDBPredicates` (failing with `ErrInvalidPredicate` carrying the original
token), then look up the field in the allow-list (failing with
`ErrInvalidDatabaseSelectorTranslation` carrying the field), and otherwise
emit the translated selector.  An error aborts with no value. -/
def ToDBSelectors {α : Type} (s : Selectors α) (apiToDBFieldMap : APIToDBFields) :
    Except InputErr (List (DBSelector α)) :=
  match s with
  | [] => .ok []
  | (field, sel) :: rest =>
    match lookupStr ToDBPredicates (strToLower sel.predicate) with
    | none => .error (.invalidPredicate sel.predicate)
    | some dbPredicate =>
      match lookupField apiToDBFieldMap field with
      | none => .error (.invalidDatabaseSelectorTranslation field)
      | some dbField =>
        match ToDBSelectors rest apiToDBFieldMap with
        | .error e => .error e
        | .ok tail => .ok (⟨dbField.table, dbField.column, dbPredicate, sel.value⟩ :: tail)

/-- Embedding of `Updates.ToDBUpdates` (src/input/clause.go lines 421-448):
look up each field in the allow-list, failing with
`ErrInvalidDatabaseUpdateTranslation` carrying the field name. -/
def ToDBUpdates {α : Type} (updates : Updates α) (apiToDBFieldMap : APIToDBFields) :
    Except InputErr (List (DBUpdate α)) :=
  match updates with
  | [] => .ok []
  | (field, value) :: rest =>
    match lookupField apiToDBFieldMap field with
    | none => .error (.invalidDatabaseUpdateTranslation field)
    | some dbField =>
      match ToDBUpdates rest apiToDBFieldMap with
      | .error e => .error e
      | .ok tail => .ok (⟨dbField.column, value⟩ :: tail)

/-- Embedding of `Orders.ToDBOrders` (src/input/clause.go lines 219-248):
the field is read from the allow-list map *without* comma-ok (absence yields
the zero DBField), the entry is rejected with `ErrInvalidOrderField` when the
resulting column is empty, and the direction token is lower-cased and read
from `DirectionsToDB` without comma-ok (unknown tokens yield the empty
direction). -/
def ToDBOrders (o : Orders) (apiToDBFieldMap : APIToDBFields) :
    Except InputErr (List DBOrder) :=
  match o with
  | [] => .ok []
  | (field, direction) :: rest =>
    let translatedField := (lookupField apiToDBFieldMap field).getD ⟨"", ""⟩
    if translatedField.column = "" then
      .error (.invalidOrderField field)
    else
      match ToDBOrders rest apiToDBFieldMap with
      | .error e => .error e
      | .ok tail =>
        .ok (⟨translatedField.table, translatedField.column,
              (lookupStr DirectionsToDB (strToLower direction)).getD ""⟩ :: tail)

/-- Embedding of `Orders.dedup` (src/input/clause.go lines 202-213): keep the
first occurrence of each field. -/
def dedupAux (seen : List String) : Orders → Orders
  | [] => []
  | (field, dir) :: rest =>
    if field ∈ seen then dedupAux seen rest
    else (field, dir) :: dedupAux (field :: seen) rest

/-- `Orders.dedup` entry point. -/
def dedup (o : Orders) : Orders :=
  dedupAux [] o

/-- Embedding of `Orders.TranslateToDBOrders` (src/input/clause.go lines
191-199): dedup, translate, and wrap any error. -/
def TranslateToDBOrders (o : Orders) (apiToDBFieldMap : APIToDBFields) :
    Except InputErr (List DBOrder) :=
  match ToDBOrders (dedup o) apiToDBFieldMap with
  | .error e => .error (.translateOrdersWrap e)
  | .ok v => .ok v

/-- `Page` from src/input/clause.go: pagination input (Go `int` fields). -/
structure Page where
  offset : Int
  limit : Int
deriving DecidableEq, Repr

/-- `dbquery.Page`. -/
structure DBPage where
  offset : Int
  limit : Int
deriving DecidableEq, Repr

/-- `Page.ToDBPage` (src/input/clause.go lines 140-145): field-by-field
copy, no validation. -/
def Page.ToDBPage (p : Page) : DBPage :=
  ⟨p.offset, p.limit⟩

/-- `ParsedGetEndpointInput` from src/input/clauseparser.go. -/
structure ParsedGetEndpointInput (α : Type) where
  selectors : List (DBSelector α)
  orders : List DBOrder
  page : DBPage
  count : Bool
deriving DecidableEq, Repr

/-- `ParsedUpdateEndpointInput` from src/input/clauseparser.go. -/
structure ParsedUpdateEndpointInput (α : Type) where
  selectors : List (DBSelector α)
  updates : List (DBUpdate α)
  upsert : Bool
deriving DecidableEq, Repr

/-- `repositorytypes.DeleteOptions` as used by `ParseDeleteInput`. -/
structure DeleteOptions where
  limit : Int
  orders : List DBOrder
deriving DecidableEq, Repr

/-- `ParsedDeleteEndpointInput` from src/input/clauseparser.go. -/
structure ParsedDeleteEndpointInput (α : Type) where
  selectors : List (DBSelector α)
  deleteOpts : DeleteOptions
deriving DecidableEq, Repr

/-- Embedding of `ParseGetInput` (src/input/clauseparser.go lines 53-78):
translate orders, substitute the default page `(0, maxPage)` when none is
supplied, translate selectors, and assemble the parsed input. -/
def ParseGetInput {α : Type} (apiToDBFields : APIToDBFields)
    (selectors : Selectors α) (orders : Orders)
    (inputPage : Option Page) (maxPage : Int) (count : Bool) :
    Except InputErr (ParsedGetEndpointInput α) :=
  match TranslateToDBOrders orders apiToDBFields with
  | .error e => .error e
  | .ok dbOrders =>
    let page := inputPage.getD ⟨0, maxPage⟩
    match ToDBSelectors selectors apiToDBFields with
    | .error e => .error e
    | .ok dbSelectors =>
      .ok ⟨dbSelectors, dbOrders, page.ToDBPage, count⟩

/-- Embedding of `ParseUpdateInput` (src/input/clauseparser.go lines
93-118): translate selectors, require at least one, translate updates,
require at least one, assemble. -/
def ParseUpdateInput {α : Type} (apiToDBFields : APIToDBFields)
    (selectors : Selectors α) (updates : Updates α) (upsert : Bool) :
    Except InputErr (ParsedUpdateEndpointInput α) :=
  match ToDBSelectors selectors apiToDBFields with
  | .error e => .error e
  | .ok dbSelectors =>
    if dbSelectors.length = 0 then
      .error .needAtLeastOneSelector
    else
      match ToDBUpdates updates apiToDBFields with
      | .error e => .error e
      | .ok dbUpdates =>
        if dbUpdates.length = 0 then
          .error .needAtLeastOneUpdate
        else
          .ok ⟨dbSelectors, dbUpdates, upsert⟩

/-- Embedding of `ParseDeleteInput` (src/input/clauseparser.go lines
133-157): translate selectors, require at least one, translate orders,
assemble with the delete options. -/
def ParseDeleteInput {α : Type} (apiToDBFields : APIToDBFields)
    (selectors : Selectors α) (orders : Orders) (limit : Int) :
    Except InputErr (ParsedDeleteEndpointInput α) :=
  match ToDBSelectors selectors apiToDBFields with
  | .error e => .error e
  | .ok dbSelectors =>
    if dbSelectors.length = 0 then
      .error .needAtLeastOneSelector
    else
      match TranslateToDBOrders orders apiToDBFields with
      | .error e => .error e
      | .ok dbOrders =>
        .ok ⟨dbSelectors, ⟨limit, dbOrders⟩⟩

/-- Any error produced by `ToDBSelectors` is an invalid-predicate or
invalid-selector-field error; in particular it never mentions the
max-page-limit error. -/
theorem toDBSelectors_error_shape {α : Type} (m : APIToDBFields) :
    ∀ (sels : Selectors α) (e : InputErr), ToDBSelectors sels m = .error e →
      mentionsMaxPage e = false := by
  intro sels
  induction sels with
  | nil => intro e h; simp [ToDBSelectors] at h
  | cons head rest ih =>
    obtain ⟨field, sel⟩ := head
    intro e h
    unfold ToDBSelectors at h
    cases hp : lookupStr ToDBPredicates (strToLower sel.predicate) with
    | none =>
      rw [hp] at h
      cases h
      rfl
    | some dbp =>
      rw [hp] at h
      cases hf : lookupField m field with
      | none =>
        rw [hf] at h
        cases h
        rfl
      | some dbField =>
        rw [hf] at h
        cases hr : ToDBSelectors rest m with
        | error e2 =>
          rw [hr] at h
          cases h
          exact ih _ hr
        | ok tail =>
          rw [hr] at h
          cases h

/-- Any error produced by `ToDBUpdates` is an invalid-update-field error; it
never mentions the max-page-limit error. -/
theorem toDBUpdates_error_shape {α : Type} (m : APIToDBFields) :
    ∀ (updates : Updates α) (e : InputErr), ToDBUpdates updates m = .error e →
      mentionsMaxPage e = false := by
  intro updates
  induction updates with
  | nil => intro e h; simp [ToDBUpdates] at h
  | cons head rest ih =>
    obtain ⟨field, value⟩ := head
    intro e h
    unfold ToDBUpdates at h
    cases hf : lookupField m field with
    | none =>
      rw [hf] at h
      cases h
      rfl
    | some dbField =>
      rw [hf] at h
      cases hr : ToDBUpdates rest m with
      | error e2 =>
        rw [hr] at h
        cases h
        exact ih _ hr
      | ok tail =>
        rw [hr] at h
        cases h

/-- Any error produced by `ToDBOrders` is an invalid-order-field error; it
never mentions the max-page-limit error. -/
theorem toDBOrders_error_shape (m : APIToDBFields) :
    ∀ (orders : Orders) (e : InputErr), ToDBOrders orders m = .error e →
      mentionsMaxPage e = false := by
  intro orders
  induction orders with
  | nil => intro e h; simp [ToDBOrders] at h
  | cons head rest ih =>
    obtain ⟨field, dir⟩ := head
    intro e h
    unfold ToDBOrders at h
    by_cases hc : ((lookupField m field).getD ⟨"", ""⟩).column = ""
    · rw [if_pos hc] at h
      cases h
      rfl
    · rw [if_neg hc] at h
      cases hr : ToDBOrders rest m with
      | error e2 =>
        rw [hr] at h
        cases h
        exact ih _ hr
      | ok tail =>
        rw [hr] at h
        cases h

/-- Any error produced by `TranslateToDBOrders` wraps a `ToDBOrders` error;
it never mentions the max-page-limit error. -/
theorem translateToDBOrders_error_shape (m : APIToDBFields) (orders : Orders)
    (e : InputErr) (h : TranslateToDBOrders orders m = .error e) :
    mentionsMaxPage e = false := by
  unfold TranslateToDBOrders at h
  cases hr : ToDBOrders (dedup orders) m with
  | error e2 =>
    rw [hr] at h
    cases h
    exact toDBOrders_error_shape m (dedup orders) e2 hr
  | ok v =>
    rw [hr] at h
    cases h

/-- A collection containing a field absent from the allow-list never
translates: `ToDBSelectors` returns an error. -/
theorem toDBSelectors_absent_field {α : Type} (m : APIToDBFields) (f : String)
    (hm : lookupField m f = none) :
    ∀ sels : Selectors α, f ∈ sels.map Prod.fst →
      ∃ e, ToDBSelectors sels m = .error e := by
  intro sels
  induction sels with
  | nil => intro h; simp at h
  | cons head rest ih =>
    obtain ⟨field, sel⟩ := head
    intro hmem
    simp only [List.map_cons, List.mem_cons] at hmem
    unfold ToDBSelectors
    cases hp : lookupStr ToDBPredicates (strToLower sel.predicate) with
    | none => exact ⟨_, rfl⟩
    | some dbp =>
      rcases hmem with rfl | hmem
      · rw [hm]
        exact ⟨_, rfl⟩
      · cases hf : lookupField m field with
        | none => exact ⟨_, rfl⟩
        | some dbField =>
          obtain ⟨e, he⟩ := ih hmem
          rw [he]
          exact ⟨e, rfl⟩

/-- A collection containing a field absent from the allow-list never
translates: `ToDBUpdates` returns an error. -/
theorem toDBUpdates_absent_field {α : Type} (m : APIToDBFields) (f : String)
    (hm : lookupField m f = none) :
    ∀ updates : Updates α, f ∈ updates.map Prod.fst →
      ∃ e, ToDBUpdates updates m = .error e := by
  intro updates
  induction updates with
  | nil => intro h; simp at h
  | cons head rest ih =>
    obtain ⟨field, value⟩ := head
    intro hmem
    simp only [List.map_cons, List.mem_cons] at hmem
    unfold ToDBUpdates
    rcases hmem with rfl | hmem
    · rw [hm]
      exact ⟨_, rfl⟩
    · cases hf : lookupField m field with
      | none => exact ⟨_, rfl⟩
      | some dbField =>
        obtain ⟨e, he⟩ := ih hmem
        rw [he]
        exact ⟨e, rfl⟩

/-- A collection containing a field absent from the allow-list never
translates: `ToDBOrders` returns an error (absence reads as the zero DBField,
whose column is empty). -/
theorem toDBOrders_absent_field (m : APIToDBFields) (f : String)
    (hm : lookupField m f = none) :
    ∀ orders : Orders, f ∈ orders.map Prod.fst →
      ∃ e, ToDBOrders orders m = .error e := by
  intro orders
  induction orders with
  | nil => intro h; simp at h
  | cons head rest ih =>
    obtain ⟨field, dir⟩ := head
    intro hmem
    simp only [List.map_cons, List.mem_cons] at hmem
    unfold ToDBOrders
    rcases hmem with rfl | hmem
    · rw [hm]
      exact ⟨_, rfl⟩
    · by_cases hc : ((lookupField m field).getD ⟨"", ""⟩).column = ""
      · rw [if_pos hc]
        exact ⟨_, rfl⟩
      · rw [if_neg hc]
        obtain ⟨e, he⟩ := ih hmem
        rw [he]
        exact ⟨e, rfl⟩

/-- C2 counterexample: translating the singleton selector collection
`unknown ↦ (predicate "bogus")` against the empty allow-list returns the
invalid-predicate error carrying the predicate token, not an error carrying
the field name "unknown" — the predicate is checked before the field. -/
theorem translate_absent_field_cex :
    ToDBSelectors [("unknown", (⟨"bogus", (0 : Nat)⟩ : Selector Nat))] []
      = .error (.invalidPredicate "bogus") ∧
    fieldOfErr (.invalidPredicate "bogus") = none :=
  ⟨rfl, rfl⟩

/-- C2 amended: for every field name absent from the allow-list map,
translating a selector, order, or update collection containing that field
returns a translation error and produces no Query-Model value; the error is
not guaranteed to carry that field name (for selectors the predicate of an
entry is checked before its field, and an earlier invalid entry may be
reported instead). -/
theorem translate_absent_field_errors {α : Type} (m : APIToDBFields)
    (f : String) (sels : Selectors α) (orders : Orders) (updates : Updates α)
    (hm : lookupField m f = none)
    (hs : f ∈ sels.map Prod.fst) (ho : f ∈ orders.map Prod.fst)
    (hu : f ∈ updates.map Prod.fst) :
    (∃ e, ToDBSelectors sels m = .error e) ∧
    (∃ e, ToDBOrders orders m = .error e) ∧
    (∃ e, ToDBUpdates updates m = .error e) :=
  ⟨toDBSelectors_absent_field m f hm sels hs,
   toDBOrders_absent_field m f hm orders ho,
   toDBUpdates_absent_field m f hm updates hu⟩

/-- Witness for amended C2 at concrete collections containing the absent
field "unknown". -/
theorem translate_absent_field_errors_witness :
    (∃ e, ToDBSelectors [("unknown", (⟨"eq", (0 : Nat)⟩ : Selector Nat))] []
      = .error e) ∧
    (∃ e, ToDBOrders [("unknown", "asc")] [] = .error e) ∧
    (∃ e, ToDBUpdates [("unknown", (0 : Nat))] [] = .error e) :=
  translate_absent_field_errors [] "unknown"
    [("unknown", ⟨"eq", 0⟩)] [("unknown", "asc")] [("unknown", 0)]
    rfl (by simp) (by simp) (by simp)

/-- C5: evaluation of the code at the predicate aliases.  The declared
constant `Lt = "LT"` is unreachable: `ToDBSelectors` lower-cases the token
before the table lookup, and the table has no lower-case "lt" key, so both
"LT" and "lt" fail with the invalid-predicate error while the spec (and the
declared predicate constants) say they resolve to less-than.  "GT", "gt" and
">" all resolve to greater-than as claimed. -/
theorem predicate_lt_alias_unreachable :
    ToDBSelectors [("f", (⟨"LT", (0 : Nat)⟩ : Selector Nat))] [("f", ⟨"t", "c"⟩)]
      = .error (.invalidPredicate "LT") ∧
    ToDBSelectors [("f", (⟨"lt", (0 : Nat)⟩ : Selector Nat))] [("f", ⟨"t", "c"⟩)]
      = .error (.invalidPredicate "lt") ∧
    ToDBSelectors [("f", (⟨"<", (0 : Nat)⟩ : Selector Nat))] [("f", ⟨"t", "c"⟩)]
      = .ok [⟨"t", "c", "<", 0⟩] ∧
    ToDBSelectors [("f", (⟨"GT", (0 : Nat)⟩ : Selector Nat))] [("f", ⟨"t", "c"⟩)]
      = .ok [⟨"t", "c", ">", 0⟩] ∧
    ToDBSelectors [("f", (⟨"gt", (0 : Nat)⟩ : Selector Nat))] [("f", ⟨"t", "c"⟩)]
      = .ok [⟨"t", "c", ">", 0⟩] ∧
    ToDBSelectors [("f", (⟨">", (0 : Nat)⟩ : Selector Nat))] [("f", ⟨"t", "c"⟩)]
      = .ok [⟨"t", "c", ">", 0⟩] :=
  ⟨rfl, rfl, rfl, rfl, rfl, rfl⟩

/-- C6: `ParseUpdateInput` with an empty selector collection returns the
need-at-least-one-selector error; with non-empty valid selectors and an empty
updates collection it returns the need-at-least-one-update error; and
`ParseDeleteInput` with an empty selector collection returns the
need-at-least-one-selector error.  No parsed structure is produced. -/
theorem parse_min_clause_invariant {α : Type} (m : APIToDBFields)
    (sels : Selectors α) (dbs : List (DBSelector α)) (updates : Updates α)
    (upsert : Bool) (orders : Orders) (limit : Int)
    (hs : ToDBSelectors sels m = .ok dbs) (hne : dbs ≠ []) :
    ParseUpdateInput m ([] : Selectors α) updates upsert
      = .error .needAtLeastOneSelector ∧
    ParseUpdateInput m sels ([] : Updates α) upsert
      = .error .needAtLeastOneUpdate ∧
    ParseDeleteInput m ([] : Selectors α) orders limit
      = .error .needAtLeastOneSelector := by
  refine ⟨?_, ?_, ?_⟩
  · simp [ParseUpdateInput, ToDBSelectors]
  · unfold ParseUpdateInput
    rw [hs]
    have hlen : ¬dbs.length = 0 := by
      simpa [List.length_eq_zero] using hne
    simp [hlen, ToDBUpdates]
  · simp [ParseDeleteInput, ToDBSelectors]

/-- Witness for C6 at a concrete allow-list and valid non-empty selectors. -/
theorem parse_min_clause_invariant_witness :
    ParseUpdateInput [("a", ⟨"t", "c"⟩)] ([] : Selectors Nat) [("a", 1)] false
      = .error .needAtLeastOneSelector ∧
    ParseUpdateInput [("a", ⟨"t", "c"⟩)]
      [("a", (⟨"eq", (0 : Nat)⟩ : Selector Nat))] [] false
      = .error .needAtLeastOneUpdate ∧
    ParseDeleteInput [("a", ⟨"t", "c"⟩)] ([] : Selectors Nat) [("a", "asc")] 5
      = .error .needAtLeastOneSelector :=
  parse_min_clause_invariant [("a", ⟨"t", "c"⟩)]
    [("a", ⟨"eq", 0⟩)] [⟨"t", "c", "=", 0⟩] [("a", 1)] false [("a", "asc")] 5
    rfl (by simp)

/-- Whatever `ParseGetInput` returns successfully carries the caller's page
unchanged (or the default `(0, maxPage)` when none was supplied), with no
validation applied. -/
theorem parseGetInput_ok_page {α : Type} (m : APIToDBFields)
    (sels : Selectors α) (orders : Orders) (pg : Option Page)
    (maxPage : Int) (count : Bool) (out : ParsedGetEndpointInput α)
    (h : ParseGetInput m sels orders pg maxPage count = .ok out) :
    out.page = (pg.getD ⟨0, maxPage⟩).ToDBPage := by
  unfold ParseGetInput at h
  cases hto : TranslateToDBOrders orders m with
  | error e =>
    rw [hto] at h
    simp at h
  | ok dbOrders =>
    rw [hto] at h
    cases hts : ToDBSelectors sels m with
    | error e =>
      rw [hts] at h
      simp at h
    | ok dbs =>
      rw [hts] at h
      simp at h
      rw [← h]

/-- Any error returned by `ParseGetInput` comes from order or selector
translation; it never mentions the max-page-limit error. -/
theorem parseGetInput_error_shape {α : Type} (m : APIToDBFields)
    (sels : Selectors α) (orders : Orders) (pg : Option Page)
    (maxPage : Int) (count : Bool) (e : InputErr)
    (h : ParseGetInput m sels orders pg maxPage count = .error e) :
    mentionsMaxPage e = false := by
  unfold ParseGetInput at h
  cases hto : TranslateToDBOrders orders m with
  | error e2 =>
    rw [hto] at h
    simp at h
    rw [← h]
    exact translateToDBOrders_error_shape m orders e2 hto
  | ok dbOrders =>
    rw [hto] at h
    cases hts : ToDBSelectors sels m with
    | error e2 =>
      rw [hts] at h
      simp at h
      rw [← h]
      exact toDBSelectors_error_shape m sels e2 hts
    | ok dbs =>
      rw [hts] at h
      simp at h

/-- Any error returned by `ParseUpdateInput` is a translation error or a
minimum-clause error; it never mentions the max-page-limit error. -/
theorem parseUpdateInput_error_shape {α : Type} (m : APIToDBFields)
    (sels : Selectors α) (updates : Updates α) (upsert : Bool) (e : InputErr)
    (h : ParseUpdateInput m sels updates upsert = .error e) :
    mentionsMaxPage e = false := by
  unfold ParseUpdateInput at h
  cases hts : ToDBSelectors sels m with
  | error e2 =>
    rw [hts] at h
    simp at h
    rw [← h]
    exact toDBSelectors_error_shape m sels e2 hts
  | ok dbs =>
    rw [hts] at h
    simp at h
    by_cases hl : dbs.length = 0
    · rw [if_pos hl] at h
      simp at h
      cases h
      rfl
    · rw [if_neg hl] at h
      cases htu : ToDBUpdates updates m with
      | error e2 =>
        rw [htu] at h
        simp at h
        cases h
        exact toDBUpdates_error_shape m updates _ htu
      | ok dbu =>
        rw [htu] at h
        simp at h
        by_cases hl2 : dbu.length = 0
        · rw [if_pos hl2] at h
          simp at h
          cases h
          rfl
        · rw [if_neg hl2] at h
          simp at h

/-- Any error returned by `ParseDeleteInput` is a translation error or the
need-at-least-one-selector error; it never mentions the max-page-limit
error. -/
theorem parseDeleteInput_error_shape {α : Type} (m : APIToDBFields)
    (sels : Selectors α) (orders : Orders) (limit : Int) (e : InputErr)
    (h : ParseDeleteInput m sels orders limit = .error e) :
    mentionsMaxPage e = false := by
  unfold ParseDeleteInput at h
  cases hts : ToDBSelectors sels m with
  | error e2 =>
    rw [hts] at h
    simp at h
    rw [← h]
    exact toDBSelectors_error_shape m sels e2 hts
  | ok dbs =>
    rw [hts] at h
    simp at h
    by_cases hl : dbs.length = 0
    · rw [if_pos hl] at h
      simp at h
      cases h
      rfl
    · rw [if_neg hl] at h
      cases hto : TranslateToDBOrders orders m with
      | error e2 =>
        rw [hto] at h
        simp at h
        cases h
        exact translateToDBOrders_error_shape m orders _ hto
      | ok dbOrders =>
        rw [hto] at h
        simp at h

/-- C9: `ParseGetInput` performs no page validation.  A non-nil input page is
passed through unchanged regardless of its offset and limit, `maxPage` is
used only to build the default page when no page is supplied, and no
translation function ever returns the declared MAX_PAGE_LIMIT_EXCEEDED
error. -/
theorem parse_get_page_untouched {α : Type} (m : APIToDBFields)
    (sels : Selectors α) (orders : Orders) (updates : Updates α)
    (p : Page) (maxPage : Int) (count upsert : Bool) (limit : Int) :
    (∀ out, ParseGetInput m sels orders (some p) maxPage count = .ok out →
      out.page = ⟨p.offset, p.limit⟩) ∧
    (∀ out, ParseGetInput m sels orders none maxPage count = .ok out →
      out.page = ⟨0, maxPage⟩) ∧
    (∀ pg e, ParseGetInput m sels orders pg maxPage count = .error e →
      mentionsMaxPage e = false) ∧
    (∀ e, ParseUpdateInput m sels updates upsert = .error e →
      mentionsMaxPage e = false) ∧
    (∀ e, ParseDeleteInput m sels orders limit = .error e →
      mentionsMaxPage e = false) ∧
    (∀ e, ToDBSelectors sels m = .error e → mentionsMaxPage e = false) ∧
    (∀ e, ToDBOrders orders m = .error e → mentionsMaxPage e = false) ∧
    (∀ e, ToDBUpdates updates m = .error e → mentionsMaxPage e = false) := by
  refine ⟨?_, ?_, ?_, ?_, ?_, ?_, ?_, ?_⟩
  · intro out h
    exact parseGetInput_ok_page m sels orders (some p) maxPage count out h
  · intro out h
    exact parseGetInput_ok_page m sels orders none maxPage count out h
  · intro pg e h
    exact parseGetInput_error_shape m sels orders pg maxPage count e h
  · intro e h
    exact parseUpdateInput_error_shape m sels updates upsert e h
  · intro e h
    exact parseDeleteInput_error_shape m sels orders limit e h
  · intro e h
    exact toDBSelectors_error_shape m sels e h
  · intro e h
    exact toDBOrders_error_shape m orders e h
  · intro e h
    exact toDBUpdates_error_shape m updates e h

/-- Witness for C9: a page with a negative offset and a limit far above
maxPage is passed through unchanged, and a concrete translation error is not
the max-page error. -/
theorem parse_get_page_untouched_witness :
    ((ParseGetInput [] ([] : Selectors Nat) [] (some ⟨-1, 99⟩) 10 false
        = .ok ⟨[], [], ⟨-1, 99⟩, false⟩) →
      (⟨[], [], ⟨-1, 99⟩, false⟩ : ParsedGetEndpointInput Nat).page = ⟨-1, 99⟩) ∧
    (⟨[], [], ⟨-1, 99⟩, false⟩ : ParsedGetEndpointInput Nat).page = ⟨-1, 99⟩ ∧
    mentionsMaxPage (.invalidDatabaseSelectorTranslation "u") = false :=
  ⟨fun h => (parse_get_page_untouched [] ([] : Selectors Nat) [] []
      ⟨-1, 99⟩ 10 false false 0).1 _ h,
   (parse_get_page_untouched [] ([] : Selectors Nat) [] []
      ⟨-1, 99⟩ 10 false false 0).1 ⟨[], [], ⟨-1, 99⟩, false⟩ rfl,
   (parse_get_page_untouched []
      [("u", (⟨"eq", (0 : Nat)⟩ : Selector Nat))] [] [] ⟨0, 0⟩ 10 false false 0).2.2.2.2.2.1
      (.invalidDatabaseSelectorTranslation "u")
      (by rfl)⟩

/-- C10 counterexample: a field that is present in the allow-list but maps to
an empty column name is rejected by `ToDBOrders`, so an order whose field is
in the allow-list can still fail. -/
theorem orders_empty_column_cex :
    lookupField [("f", ⟨"t", ""⟩)] "f" = some ⟨"t", ""⟩ ∧
    ToDBOrders [("f", "asc")] [("f", ⟨"t", ""⟩)]
      = .error (.invalidOrderField "f") :=
  ⟨rfl, rfl⟩

/-- C10 amended: for every order collection whose fields all map in the
allow-list to a DBField with a non-empty column, `ToDBOrders` succeeds
regardless of the direction tokens (a mapping with an empty column is
rejected like an absent field); a direction whose lower-cased form is not
asc/ascending/desc/descending is silently mapped to the empty-string
direction. -/
theorem orders_direction_never_fails (m : APIToDBFields) (orders : Orders)
    (f dir t c : String)
    (hall : ∀ fld ∈ orders.map Prod.fst,
      ∃ d, lookupField m fld = some d ∧ d.column ≠ "")
    (hf : lookupField m f = some ⟨t, c⟩) (hc : c ≠ "")
    (hdir : lookupStr DirectionsToDB (strToLower dir) = none) :
    (∃ v, ToDBOrders orders m = .ok v) ∧
    ToDBOrders [(f, dir)] m = .ok [⟨t, c, ""⟩] := by
  constructor
  · clear hf hc hdir
    induction orders with
    | nil => exact ⟨[], rfl⟩
    | cons head rest ih =>
      obtain ⟨fld, d⟩ := head
      obtain ⟨dbf, hlk, hnc⟩ := hall fld (by simp)
      obtain ⟨v, hv⟩ := ih (fun x hx => hall x (by simp [hx]))
      refine ⟨⟨dbf.table, dbf.column,
        (lookupStr DirectionsToDB (strToLower d)).getD ""⟩ :: v, ?_⟩
      unfold ToDBOrders
      rw [hlk, hv]
      simp only [Option.getD_some]
      rw [if_neg hnc]
  · unfold ToDBOrders
    rw [hf, hdir]
    simp only [Option.getD_some, Option.getD_none]
    rw [if_neg hc]
    rfl

/-- Witness for amended C10: a single order with an unknown direction token
translates to the empty direction. -/
theorem orders_direction_never_fails_witness :
    (∃ v, ToDBOrders [("a", "weird")] [("a", ⟨"t", "col"⟩)] = .ok v) ∧
    ToDBOrders [("a", "weird")] [("a", ⟨"t", "col"⟩)]
      = .ok [⟨"t", "col", ""⟩] :=
  orders_direction_never_fails [("a", ⟨"t", "col"⟩)] [("a", "weird")]
    "a" "weird" "t" "col"
    (fun fld hfld => by
      simp at hfld
      subst hfld
      exact ⟨⟨"t", "col"⟩, rfl, by simp⟩)
    rfl (by simp) rfl

end Input

namespace Repository

/-- Observable interactions of an execution primitive with the driver:
a successful Prepare, a successful row-producing Query (open rows handed
out), a Close on the prepared statement, a Close on the rows cursor, and an
invocation of the error-checker hook. -/
inductive DBEvent where
  | prepareOk
  | queryOk
  | stmtClose
  | rowsClose
  | hookCheck
deriving DecidableEq, Repr

/-- Errors surfaced by the execution primitives: the nil-handle guard error
(`fmt.Errorf("<fn>: preparer is nil")`), a raw driver error, and the combined
error built by `doQuery` when both the query and the statement close fail. -/
inductive GErr (E : Type) where
  | nilHandle (fn : String)
  | base (e : E)
  | queryCloseBoth (queryErr closeErr : E)
deriving DecidableEq, Repr

/-- Deterministic behavior of a statement-capable handle and the rows/row it
produces: the outcome of Prepare, of `stmt.Exec`, of `stmt.Query`, of
`stmt.Close`, the scan outcome and `row.Err()` of the single row returned by
`stmt.QueryRow`, and the per-row scan outcomes plus final `rows.Err()` of the
cursor returned by `stmt.Query` (`none` = success). -/
structure Driver (E A : Type) where
  prepareErr : Option E
  execErr : Option E
  queryErr : Option E
  stmtCloseErr : Option E
  rowScan : Except E A
  rowErr : Option E
  rowsList : List (Except E A)
  rowsFinalErr : Option E

/-- The open rows+statement pair handed to the caller by a successful
`Query`: the cursor's scan behavior travels with it. -/
structure RowsHandle (E A : Type) where
  rowsList : List (Except E A)
  rowsFinalErr : Option E

/-- Embedding of `doExec` (src/repository/dbops.go lines 370-386): prepare
(failing without further events), then execute with the statement closed by
the deferred Close on both paths. -/
def doExec {E A : Type} (d : Driver E A) : Except (GErr E) Unit × List DBEvent :=
  match d.prepareErr with
  | some e => (.error (.base e), [])
  | none =>
    match d.execErr with
    | some e => (.error (.base e), [.prepareOk, .stmtClose])
    | none => (.ok (), [.prepareOk, .stmtClose])

/-- Embedding of `doQuery` (src/repository/dbops.go lines 400-422): prepare,
then query; on query failure the statement is closed before returning (a
close failure is combined into the error); on success the open rows and
statement are handed out unclosed. -/
def doQuery {E A : Type} (d : Driver E A) :
    Except (GErr E) (RowsHandle E A) × List DBEvent :=
  match d.prepareErr with
  | some e => (.error (.base e), [])
  | none =>
    match d.queryErr with
    | none => (.ok ⟨d.rowsList, d.rowsFinalErr⟩, [.prepareOk, .queryOk])
    | some qe =>
      match d.stmtCloseErr with
      | some ce => (.error (.queryCloseBoth qe ce), [.prepareOk, .stmtClose])
      | none => (.error (.base qe), [.prepareOk, .stmtClose])

/-- Embedding of `Exec` (src/repository/dbops.go lines 23-41): nil-handle
guard, then `doExec`; any `doExec` error is passed to the checker when one is
configured. -/
def Exec {E A : Type} (preparer : Option (Driver E A))
    (errorChecker : Option (GErr E → GErr E)) :
    Except (GErr E) Unit × List DBEvent :=
  match preparer with
  | none => (.error (.nilHandle "Exec"), [])
  | some d =>
    match doExec d with
    | (.ok r, tr) => (.ok r, tr)
    | (.error e, tr) =>
      match errorChecker with
      | none => (.error e, tr)
      | some f => (.error (f e), tr ++ [.hookCheck])

/-- Embedding of `Query` (src/repository/dbops.go lines 57-75): nil-handle
guard, then `doQuery`; any `doQuery` error is passed to the checker when one
is configured; on success the caller owns the open rows and statement. -/
def Query {E A : Type} (preparer : Option (Driver E A))
    (errorChecker : Option (GErr E → GErr E)) :
    Except (GErr E) (RowsHandle E A) × List DBEvent :=
  match preparer with
  | none => (.error (.nilHandle "Query"), [])
  | some d =>
    match doQuery d with
    | (.ok h, tr) => (.ok h, tr)
    | (.error e, tr) =>
      match errorChecker with
      | none => (.error e, tr)
      | some f => (.error (f e), tr ++ [.hookCheck])

/-- Embedding of `RowToAny` / `RowToEntity` (src/repository/dbops.go lines
269-311): scan the single row, then check `row.Err()`. -/
def RowToAny {E A : Type} (scan : Except E A) (rowErr : Option E) : Except E A :=
  match scan with
  | .error e => .error e
  | .ok a =>
    match rowErr with
    | some e => .error e
    | none => .ok a

/-- Embedding of `RowsToEntities` (src/repository/dbops.go lines 352-367):
scan each row in order, aborting on the first scan error, then check
`rows.Err()`. -/
def RowsToEntities {E A : Type} (rows : List (Except E A)) (finalErr : Option E) :
    Except E (List A) :=
  match rows with
  | [] =>
    match finalErr with
    | some e => .error e
    | none => .ok []
  | r :: rest =>
    match r with
    | .error e => .error e
    | .ok a =>
      match RowsToEntities rest finalErr with
      | .error e => .error e
      | .ok l => .ok (a :: l)

/-- Embedding of `QuerySingleValue` (src/repository/dbops.go lines 158-185):
nil-handle guard, prepare (a prepare error is returned directly, bypassing
the checker), deferred statement close, QueryRow + `RowToAny`, and checker
applied to scan errors only. -/
def QuerySingleValue {E A : Type} (preparer : Option (Driver E A))
    (errorChecker : Option (GErr E → GErr E)) :
    Except (GErr E) A × List DBEvent :=
  match preparer with
  | none => (.error (.nilHandle "QuerySingleValue"), [])
  | some d =>
    match d.prepareErr with
    | some e => (.error (.base e), [])
    | none =>
      match RowToAny d.rowScan d.rowErr with
      | .error e =>
        match errorChecker with
        | some f => (.error (f (.base e)), [.prepareOk, .hookCheck, .stmtClose])
        | none => (.error (.base e), [.prepareOk, .stmtClose])
      | .ok a => (.ok a, [.prepareOk, .stmtClose])

/-- Embedding of `QuerySingleEntity` (src/repository/dbops.go lines
201-226): same discipline as `QuerySingleValue` with the entity scan. -/
def QuerySingleEntity {E A : Type} (preparer : Option (Driver E A))
    (errorChecker : Option (GErr E → GErr E)) :
    Except (GErr E) A × List DBEvent :=
  match preparer with
  | none => (.error (.nilHandle "QuerySingleEntity"), [])
  | some d =>
    match d.prepareErr with
    | some e => (.error (.base e), [])
    | none =>
      match RowToAny d.rowScan d.rowErr with
      | .error e =>
        match errorChecker with
        | some f => (.error (f (.base e)), [.prepareOk, .hookCheck, .stmtClose])
        | none => (.error (.base e), [.prepareOk, .stmtClose])
      | .ok a => (.ok a, [.prepareOk, .stmtClose])

/-- Embedding of `QueryEntities` (src/repository/dbops.go lines 242-257):
`Query`, then deferred closes of statement and rows around
`RowsToEntities`; scan errors are returned without the checker. -/
def QueryEntities {E A : Type} (preparer : Option (Driver E A))
    (errorChecker : Option (GErr E → GErr E)) :
    Except (GErr E) (List A) × List DBEvent :=
  match Query preparer errorChecker with
  | (.error e, tr) => (.error e, tr)
  | (.ok h, tr) =>
    match RowsToEntities h.rowsList h.rowsFinalErr with
    | .error e => (.error (.base e), tr ++ [.rowsClose, .stmtClose])
    | .ok l => (.ok l, tr ++ [.rowsClose, .stmtClose])

/-- Every handle acquired during the call has been closed by the time it
returns: a successful prepare is matched by a statement close, and an open
cursor by a rows close. -/
def closedAfter (tr : List DBEvent) : Prop :=
  (DBEvent.prepareOk ∈ tr → DBEvent.stmtClose ∈ tr) ∧
  (DBEvent.queryOk ∈ tr → DBEvent.rowsClose ∈ tr)

/-- C7 counterexample: with a configured hook, a preparation-step failure in
`Exec` IS passed through the hook — `doExec` returns the prepare error and
`Exec` applies the checker to every `doExec` error. -/
theorem exec_prepare_error_hook_cex :
    Exec (A := Nat)
      (some ⟨some "prepare failed", none, none, none, .ok 0, none, [], none⟩)
      (some (fun _ => .base "TRANSLATED"))
      = (.error (.base "TRANSLATED"), [DBEvent.hookCheck]) :=
  rfl

/-- C7 amended: nil-handle errors bypass the hook in every primitive.  In
`QuerySingleValue` and `QuerySingleEntity` a preparation error also bypasses
the hook, while a scan error after successful preparation passes through it
exactly once.  In `Exec` and `Query`, however, every `doExec`/`doQuery`
error — the preparation error included — passes through the hook exactly
once; and a scan error in `QueryEntities` bypasses the hook.  With no hook
configured, every primitive returns the raw result unchanged and the hook is
never invoked. -/
theorem dbops_hook_propagation {E A : Type} (d : Driver E A)
    (f : GErr E → GErr E) (e : E) :
    (Exec (E := E) (A := A) none (some f) = (.error (.nilHandle "Exec"), []) ∧
      Query (E := E) (A := A) none (some f)
        = (.error (.nilHandle "Query"), []) ∧
      QuerySingleValue (E := E) (A := A) none (some f)
        = (.error (.nilHandle "QuerySingleValue"), []) ∧
      QuerySingleEntity (E := E) (A := A) none (some f)
        = (.error (.nilHandle "QuerySingleEntity"), []) ∧
      QueryEntities (E := E) (A := A) none (some f)
        = (.error (.nilHandle "Query"), [])) ∧
    (d.prepareErr = some e →
      QuerySingleValue (some d) (some f) = (.error (.base e), []) ∧
      QuerySingleEntity (some d) (some f) = (.error (.base e), [])) ∧
    (d.prepareErr = some e →
      Exec (some d) (some f) = (.error (f (.base e)), [.hookCheck]) ∧
      Query (some d) (some f) = (.error (f (.base e)), [.hookCheck])) ∧
    (d.prepareErr = none → d.execErr = some e →
      Exec (some d) (some f)
        = (.error (f (.base e)), [.prepareOk, .stmtClose, .hookCheck])) ∧
    (d.prepareErr = none → RowToAny d.rowScan d.rowErr = .error e →
      QuerySingleValue (some d) (some f)
        = (.error (f (.base e)), [.prepareOk, .hookCheck, .stmtClose])) ∧
    (d.prepareErr = none → RowToAny d.rowScan d.rowErr = .error e →
      QuerySingleEntity (some d) (some f)
        = (.error (f (.base e)), [.prepareOk, .hookCheck, .stmtClose])) ∧
    (d.prepareErr = none → d.queryErr = some e → d.stmtCloseErr = none →
      Query (some d) (some f)
        = (.error (f (.base e)), [.prepareOk, .stmtClose, .hookCheck])) ∧
    (∀ ce, d.prepareErr = none → d.queryErr = some e →
      d.stmtCloseErr = some ce →
      Query (some d) (some f)
        = (.error (f (.queryCloseBoth e ce)),
            [.prepareOk, .stmtClose, .hookCheck])) ∧
    (d.prepareErr = none → d.queryErr = none →
      RowsToEntities d.rowsList d.rowsFinalErr = .error e →
      QueryEntities (some d) (some f)
        = (.error (.base e), [.prepareOk, .queryOk, .rowsClose, .stmtClose])) ∧
    (Exec (some d) none = doExec d ∧
      Query (some d) none = doQuery d ∧
      DBEvent.hookCheck ∉ (Exec (some d) none).2 ∧
      DBEvent.hookCheck ∉ (Query (some d) none).2 ∧
      DBEvent.hookCheck ∉ (QuerySingleValue (some d) none).2 ∧
      DBEvent.hookCheck ∉ (QuerySingleEntity (some d) none).2 ∧
      DBEvent.hookCheck ∉ (QueryEntities (some d) none).2) := by
  obtain ⟨pe, ee, qe, sce, rs, re, rl, rfe⟩ := d
  refine ⟨⟨rfl, rfl, rfl, rfl, rfl⟩,
    ?_, ?_, ?_, ?_, ?_, ?_, ?_, ?_, ?_, ?_, ?_, ?_, ?_, ?_, ?_⟩
  · rintro rfl
    exact ⟨rfl, rfl⟩
  · rintro rfl
    exact ⟨rfl, rfl⟩
  · rintro rfl h2
    simp only at h2
    subst h2
    rfl
  · rintro rfl h2
    simp only at h2
    simp [QuerySingleValue, h2]
  · rintro rfl h2
    simp only at h2
    simp [QuerySingleEntity, h2]
  · rintro rfl h2 h3
    simp only at h2 h3
    subst h2
    subst h3
    rfl
  · rintro ce rfl h2 h3
    simp only at h2 h3
    subst h2
    subst h3
    rfl
  · rintro rfl h2 h3
    simp only at h2 h3
    subst h2
    simp [QueryEntities, Query, doQuery, h3]
  · cases pe <;> cases ee <;> rfl
  · cases pe <;> cases qe <;> cases sce <;> rfl
  · cases pe <;> cases ee <;> simp [Exec, doExec]
  · cases pe <;> cases qe <;> cases sce <;> simp [Query, doQuery]
  · cases pe
    · cases h : RowToAny rs re <;> simp [QuerySingleValue, h]
    · simp [QuerySingleValue]
  · cases pe
    · cases h : RowToAny rs re <;> simp [QuerySingleEntity, h]
    · simp [QuerySingleEntity]
  · cases pe
    · cases qe
      · cases h : RowsToEntities rl rfe <;>
          simp [QueryEntities, Query, doQuery, h]
      · cases sce <;> simp [QueryEntities, Query, doQuery]
    · simp [QueryEntities, Query, doQuery]

/-- Witness for amended C7: the hook-bypass and hook-application conjuncts at
concrete drivers (prepare failure, execute failure, scan failure in both
single-row primitives, query failure in Query with the statement close
succeeding and failing, and a scan failure in QueryEntities). -/
theorem dbops_hook_propagation_witness :
    (QuerySingleValue (A := Nat)
        (some ⟨some "p", none, none, none, .ok 0, none, [], none⟩)
        (some (fun _ => .base "T")) = (.error (.base "p"), []) ∧
      QuerySingleEntity (A := Nat)
        (some ⟨some "p", none, none, none, .ok 0, none, [], none⟩)
        (some (fun _ => .base "T")) = (.error (.base "p"), [])) ∧
    Exec (A := Nat)
      (some ⟨none, some "x", none, none, .ok 0, none, [], none⟩)
      (some (fun _ => .base "T"))
      = (.error (.base "T"), [.prepareOk, .stmtClose, .hookCheck]) ∧
    QuerySingleValue (A := Nat)
      (some ⟨none, none, none, none, .error "s", none, [], none⟩)
      (some (fun _ => .base "T"))
      = (.error (.base "T"), [.prepareOk, .hookCheck, .stmtClose]) ∧
    QuerySingleEntity (A := Nat)
      (some ⟨none, none, none, none, .error "s", none, [], none⟩)
      (some (fun _ => .base "T"))
      = (.error (.base "T"), [.prepareOk, .hookCheck, .stmtClose]) ∧
    Query (A := Nat)
      (some ⟨none, none, some "q", none, .ok 0, none, [], none⟩)
      (some (fun _ => .base "T"))
      = (.error (.base "T"), [.prepareOk, .stmtClose, .hookCheck]) ∧
    Query (A := Nat)
      (some ⟨none, none, some "q", some "c", .ok 0, none, [], none⟩)
      (some (fun _ => .base "T"))
      = (.error (.base "T"), [.prepareOk, .stmtClose, .hookCheck]) ∧
    QueryEntities (A := Nat)
      (some ⟨none, none, none, none, .ok 0, none, [.error "s"], none⟩)
      (some (fun _ => .base "T"))
      = (.error (.base "s"), [.prepareOk, .queryOk, .rowsClose, .stmtClose]) :=
  ⟨(dbops_hook_propagation ⟨some "p", none, none, none, .ok 0, none, [], none⟩
      (fun _ => .base "T") "p").2.1 rfl,
   (dbops_hook_propagation ⟨none, some "x", none, none, .ok 0, none, [], none⟩
      (fun _ => .base "T") "x").2.2.2.1 rfl rfl,
   (dbops_hook_propagation ⟨none, none, none, none, .error "s", none, [], none⟩
      (fun _ => .base "T") "s").2.2.2.2.1 rfl rfl,
   (dbops_hook_propagation ⟨none, none, none, none, .error "s", none, [], none⟩
      (fun _ => .base "T") "s").2.2.2.2.2.1 rfl rfl,
   (dbops_hook_propagation ⟨none, none, some "q", none, .ok 0, none, [], none⟩
      (fun _ => .base "T") "q").2.2.2.2.2.2.1 rfl rfl rfl,
   (dbops_hook_propagation
      ⟨none, none, some "q", some "c", .ok 0, none, [], none⟩
      (fun _ => .base "T") "q").2.2.2.2.2.2.2.1 "c" rfl rfl rfl,
   (dbops_hook_propagation
      ⟨none, none, none, none, .ok 0, none, [.error "s"], none⟩
      (fun _ => .base "T") "s").2.2.2.2.2.2.2.2.1 rfl rfl rfl⟩

/-- C8: after any call to `Exec`, `QuerySingleValue`, `QuerySingleEntity` or
`QueryEntities` returns, every prepared statement and row cursor acquired has
been closed, on success and on every failure path.  `Query` is the single
exception: on success it hands the open rows and statement to the caller (no
close events), and on a query failure after successful preparation it closes
the statement itself before returning the error. -/
theorem dbops_resource_cleanup {E A : Type} (p : Option (Driver E A))
    (d : Driver E A) (checker : Option (GErr E → GErr E)) :
    closedAfter (Exec p checker).2 ∧
    closedAfter (QuerySingleValue p checker).2 ∧
    closedAfter (QuerySingleEntity p checker).2 ∧
    closedAfter (QueryEntities p checker).2 ∧
    (∀ h tr, Query (some d) checker = (.ok h, tr) →
      DBEvent.stmtClose ∉ tr ∧ DBEvent.rowsClose ∉ tr ∧
        DBEvent.prepareOk ∈ tr) ∧
    (∀ e tr, Query (some d) checker = (.error e, tr) → closedAfter tr) := by
  obtain ⟨dpe, dee, dqe, dsce, drs, dre, drl, drfe⟩ := d
  refine ⟨?_, ?_, ?_, ?_, ?_, ?_⟩
  · cases p with
    | none => simp [Exec, closedAfter]
    | some d0 =>
      obtain ⟨pe, ee, qe, sce, rs, re, rl, rfe⟩ := d0
      cases pe <;> cases ee <;> cases checker <;>
        simp [Exec, doExec, closedAfter]
  · cases p with
    | none => simp [QuerySingleValue, closedAfter]
    | some d0 =>
      obtain ⟨pe, ee, qe, sce, rs, re, rl, rfe⟩ := d0
      cases pe with
      | none =>
        cases checker <;> cases h : RowToAny rs re <;>
          simp [QuerySingleValue, closedAfter, h]
      | some e0 =>
        cases checker <;> simp [QuerySingleValue, closedAfter]
  · cases p with
    | none => simp [QuerySingleEntity, closedAfter]
    | some d0 =>
      obtain ⟨pe, ee, qe, sce, rs, re, rl, rfe⟩ := d0
      cases pe with
      | none =>
        cases checker <;> cases h : RowToAny rs re <;>
          simp [QuerySingleEntity, closedAfter, h]
      | some e0 =>
        cases checker <;> simp [QuerySingleEntity, closedAfter]
  · cases p with
    | none => simp [QueryEntities, Query, closedAfter]
    | some d0 =>
      obtain ⟨pe, ee, qe, sce, rs, re, rl, rfe⟩ := d0
      cases pe with
      | none =>
        cases qe with
        | none =>
          cases checker <;> cases h : RowsToEntities rl rfe <;>
            simp [QueryEntities, Query, doQuery, closedAfter, h]
        | some e0 =>
          cases sce <;> cases checker <;>
            simp [QueryEntities, Query, doQuery, closedAfter]
      | some e0 =>
        cases checker <;> simp [QueryEntities, Query, doQuery, closedAfter]
  · intro h tr hq
    have htr : tr
        = (Query (some ⟨dpe, dee, dqe, dsce, drs, dre, drl, drfe⟩) checker).2 := by
      rw [hq]
    subst htr
    cases dpe <;> cases dqe <;> cases dsce <;> cases checker <;>
      simp [Query, doQuery] at hq ⊢
  · intro e tr hq
    have htr : tr
        = (Query (some ⟨dpe, dee, dqe, dsce, drs, dre, drl, drfe⟩) checker).2 := by
      rw [hq]
    subst htr
    cases dpe <;> cases dqe <;> cases dsce <;> cases checker <;>
      simp [Query, doQuery, closedAfter] at hq ⊢

/-- Witness for C8: concrete drivers exercising a successful `Exec` (the
statement is closed), a successful `Query` (the handles stay open), and a
failed `Query` after successful preparation (the statement is closed). -/
theorem dbops_resource_cleanup_witness :
    DBEvent.stmtClose ∈
      (Exec (E := String) (A := Nat)
        (some ⟨none, none, none, none, .ok 0, none, [], none⟩) none).2 ∧
    (DBEvent.stmtClose ∉ ([.prepareOk, .queryOk] : List DBEvent) ∧
      DBEvent.rowsClose ∉ ([.prepareOk, .queryOk] : List DBEvent) ∧
      DBEvent.prepareOk ∈ ([.prepareOk, .queryOk] : List DBEvent)) ∧
    DBEvent.stmtClose ∈ ([DBEvent.prepareOk, DBEvent.stmtClose] : List DBEvent) :=
  ⟨(dbops_resource_cleanup
      (some ⟨none, none, none, none, .ok 0, none, [], none⟩)
      (⟨none, none, none, none, .ok 0, none, [], none⟩ : Driver String Nat)
      none).1.1 (by decide),
   (dbops_resource_cleanup
      (some ⟨none, none, none, none, .ok 0, none, [], none⟩)
      (⟨none, none, none, none, .ok 0, none, [], none⟩ : Driver String Nat)
      none).2.2.2.2.1 ⟨[], none⟩ [.prepareOk, .queryOk] rfl,
   ((dbops_resource_cleanup
      (some ⟨none, none, none, none, .ok 0, none, [], none⟩)
      (⟨none, none, some "q", none, .ok 0, none, [], none⟩ : Driver String Nat)
      none).2.2.2.2.2 (.base "q") [.prepareOk, .stmtClose] rfl).1 (by decide)⟩

end Repository

end PureAPI
